import Mathlib

/-!
Shallow embedding of the NeoZygisk daemon core
(`src/zygiskd/src/root_impl/apatch.rs` and `src/zygiskd/src/utils.rs`).

Rust strings are modelled as `List Char` (`Str`), so that every definition
is executable by kernel reduction. File contents, subprocess output and
system-call results are passed in as explicit parameters; the pure decision
logic is translated line by line from the Rust source.
-/

namespace NeoZygisk

/-- Rust `String` / `&str`, modelled as its character sequence. -/
abbrev Str := List Char

/-- Model of Rust's `str::trim`: remove leading and trailing whitespace. -/
def trim (s : Str) : Str :=
  ((s.dropWhile Char.isWhitespace).reverse.dropWhile Char.isWhitespace).reverse

/-- Result of `i32::from_str` (Rust's `str::parse::<i32>()`): an optional
leading `+`/`-` sign followed by at least one ASCII digit, with the value
required to fit in a signed 32-bit integer. -/
def parseI32 (s : Str) : Option Int :=
  let sign : Int := match s with | '-' :: _ => -1 | _ => 1
  let digits : Str := match s with | '-' :: r => r | '+' :: r => r | _ => s
  if digits.length = 0 then none
  else if digits.all (fun c => c.isDigit) then
    let n : Nat := digits.foldl (fun acc c => acc * 10 + (c.toNat - 48)) 0
    let v : Int := sign * (n : Int)
    if -(2 ^ 31) ≤ v ∧ v ≤ 2 ^ 31 - 1 then some v else none
  else none

/-- One row of the APatch package configuration table
(struct `PackageInfo` in `apatch.rs`). -/
structure PackageInfo where
  pkg : Str
  exclude : Bool
  allow : Bool
  uid : Int
  to_uid : Int
  sctx : Str
deriving DecidableEq

deriving instance DecidableEq for Except

/-- Body of the per-line `match` in `parse_config_file`: six calls to
`parts.next()` on the comma-split iterator are matched against `Some`; a
shortfall is an "Invalid line format" error, and the `uid`/`to_uid` fields
must parse as `i32`. Fields past the sixth (the `_` tail) are never
examined. -/
def parse_fields : List Str → Except Str PackageInfo
  | pkg :: exclude :: allow :: uid_str :: to_uid_str :: sctx :: _ =>
    match parseI32 uid_str with
    | none => .error ("Invalid field uid".data ++ uid_str)
    | some uid =>
      match parseI32 to_uid_str with
      | none => .error ("Invalid field to_uid".data ++ to_uid_str)
      | some to_uid =>
        .ok { pkg := pkg, exclude := exclude == "1".data, allow := allow == "1".data,
              uid := uid, to_uid := to_uid, sctx := sctx }
  | _ => .error "Invalid line format".data

/-- One iteration of the `while let` loop in `parse_config_file`: the line
is trimmed, split on commas (`line.trim().split(',')`), and handed to the
field match. -/
def parse_line (line : Str) : Except Str PackageInfo :=
  parse_fields ((trim line).splitOn ',')

/-- Loop of `parse_config_file` over the non-header lines: each line is
parsed and pushed; the first error aborts the whole read with no partial
result. -/
def parse_lines : List Str → Except Str (List PackageInfo)
  | [] => .ok []
  | l :: ls =>
    match parse_line l with
    | .error e => .error e
    | .ok p =>
      match parse_lines ls with
      | .error e => .error e
      | .ok rest => .ok (p :: rest)

/-- Model of `parse_config_file`, with the file presented as its list of
lines: the first (header) line is read and discarded, the remaining lines
go through the line loop. -/
def parse_config_file (lines : List Str) : Except Str (List PackageInfo) :=
  parse_lines (lines.drop 1)

/-- Model of `uid_granted_root`, with the configuration file content passed
in as its lines: on a successful parse, scan for the first entry with the
queried uid and return its `allow` flag; no match, or a parse error, yields
`false`. -/
def uid_granted_root (lines : List Str) (uid : Int) : Bool :=
  match parse_config_file lines with
  | .ok packages =>
    match packages.find? (fun p => p.uid == uid) with
    | some p => p.allow
    | none => false
  | .error _ => false

/-- Model of `uid_should_umount`, identical to `uid_granted_root` except
that it returns the matching entry's `exclude` flag. -/
def uid_should_umount (lines : List Str) (uid : Int) : Bool :=
  match parse_config_file lines with
  | .ok packages =>
    match packages.find? (fun p => p.uid == uid) with
    | some p => p.exclude
    | none => false
  | .error _ => false

/-- Model of `uid_is_manager`: the stat result for the manager path is
passed in (`none` = stat failed, `some st_uid` = the file's owner uid, an
unsigned 32-bit value); the query compares `st_uid` with the queried `i32`
uid converted by Rust's wrapping `as u32` cast, i.e. `uid mod 2^32`. -/
def uid_is_manager (st : Option Nat) (uid : Int) : Bool :=
  match st with
  | some st_uid => st_uid == (uid % 2 ^ 32).toNat
  | none => false

/-- Model of Rust's `str::split_whitespace`: split on whitespace and drop
empty tokens. -/
def split_whitespace (s : Str) : List Str :=
  (List.splitOnP (fun c => c.isWhitespace) s).filter (fun t => !t.isEmpty)

/-- Version verdict of the APatch probe (enum `Version` in `apatch.rs`). -/
inductive Version where
  | Supported
  | TooOld
deriving DecidableEq

/-- Model of `get_apatch`. The subprocess pipeline (`spawn`,
`wait_with_output`, `String::from_utf8`) is summarized by the parameter
`stdout : Option Str` (`none` = spawn, wait or UTF-8 failure). The constant
`MIN_APATCH_VERSION` lives in `constants.rs`, outside the sources in view,
so the minimum version is a parameter. The output must consist of exactly
two whitespace-separated tokens, the second parsing as `i32`. -/
def get_apatch (minVersion : Int) (stdout : Option Str) : Option Version :=
  (stdout.bind fun output =>
    match split_whitespace output with
    | [_, second] => parseI32 second
    | _ => none).map fun version =>
      if version ≥ minVersion then Version.Supported else Version.TooOld

/-- Model of Rust's `str::starts_with` on character sequences:
`starts_with s pre` holds when `pre` is an initial segment of `s`. -/
def starts_with (s pre : Str) : Bool :=
  match s, pre with
  | _, [] => true
  | [], _ :: _ => false
  | c :: s, p :: ps => c == p && starts_with s ps

/-- One row of the live mount table as consumed by `revert_unmount`
(procfs `MountInfo`): the mount point path (already converted to a string
in the source), the optional mount source, and the mount root. -/
structure MountInfo where
  mount_point : Str
  mount_source : Option Str
  root : Str
deriving DecidableEq

/-- Modelled from the spec: the `RootImplementation` tag. Its enum is
declared in the `root_impl` module, outside the sources in view; the spec
gives the closed variant set (APatch, a second kernel-level provider
KernelSU, the overlay provider Magisk, and an unknown/none state), which
matches the variants named by the `match` in `revert_unmount`. -/
inductive RootImpl where
  | APatch
  | KernelSU
  | Magisk
  | None
deriving DecidableEq

/-- Classification of one mount record by `revert_unmount`
(the `should_unmount` computation inside its loop). The `_ => panic!`
branch for an unknown root implementation is modelled as `none`; the three
supported providers yield `some` of the selection flag. -/
def should_unmount (impl : RootImpl) (modules_only : Bool) (info : MountInfo) :
    Option Bool :=
  match impl with
  | .APatch => some
      (if modules_only then starts_with info.mount_point "/debug_ramdisk".data
       else info.mount_source == some "APatch".data
         || starts_with info.root "/adb/modules".data
         || starts_with info.mount_point "/data/adb/modules".data)
  | .KernelSU => some
      (if modules_only then starts_with info.mount_point "/debug_ramdisk".data
       else info.mount_source == some "KSU".data
         || starts_with info.root "/adb/modules".data
         || starts_with info.mount_point "/data/adb/modules".data)
  | .Magisk => some
      (if modules_only then starts_with info.mount_point "/debug_ramdisk".data
         || (info.mount_source == some "magisk".data
             && starts_with info.mount_point "/system/bin".data)
       else info.mount_source == some "magisk".data
         || starts_with info.root "/adb/modules".data)
  | .None => none

/-- Target-collection loop of `revert_unmount`: walk the mount table in
enumeration order and push the mount point of every selected record;
`none` models the `panic!` on an unknown root implementation. -/
def collect_targets (impl : RootImpl) (modules_only : Bool) :
    List MountInfo → Option (List Str)
  | [] => some []
  | info :: rest =>
    match should_unmount impl modules_only info with
    | none => none
    | some b =>
      match collect_targets impl modules_only rest with
      | none => none
      | some tail => some (if b then info.mount_point :: tail else tail)

/-- Detachment loop of `revert_unmount`: attempt `umount2(..., MNT_DETACH)`
on each target in order; the outcome of each call is given by the `fail`
oracle. Returns the list of successfully detached paths in the order they
were detached, and `some p` for the first path whose detachment failed
(which aborts the rest with an error), or `none` when all succeeded. -/
def run_detach (fail : Str → Bool) : List Str → List Str × Option Str
  | [] => ([], none)
  | p :: ps =>
    if fail p then ([], some p)
    else
      let r := run_detach fail ps
      (p :: r.1, r.2)

/-- Model of `revert_unmount`: collect the targets over the given mount
table (`none` = the unknown-provider `panic!`), reverse them, and run the
detachment loop. -/
def revert_unmount (impl : RootImpl) (modules_only : Bool)
    (infos : List MountInfo) (fail : Str → Bool) :
    Option (List Str × Option Str) :=
  (collect_targets impl modules_only infos).map fun targets =>
    run_detach fail targets.reverse

/-- Modelled from the spec: the `MountNamespace` kind enum (`constants.rs`,
outside the sources in view); the spec names the three kinds Clean, Root
and Module. -/
inductive MountNamespace where
  | Clean
  | Root
  | Module
deriving DecidableEq

/-- The three process-wide `LateInit` namespace-descriptor slots
(`CLEAN_MNT_NS_FD`, `ROOT_MNT_NS_FD`, `MODULE_MNT_NS_FD`), modelled as
explicit state. -/
structure NsState where
  clean_fd : Option Int
  root_fd : Option Int
  module_fd : Option Int
deriving DecidableEq

/-- The slot of `NsState` addressed by a namespace kind. -/
def slot (s : NsState) : MountNamespace → Option Int
  | .Clean => s.clean_fd
  | .Root => s.root_fd
  | .Module => s.module_fd

/-- Populate (`LateInit::init`) the slot addressed by a namespace kind. -/
def set_slot (s : NsState) (k : MountNamespace) (fd : Int) : NsState :=
  match k with
  | .Clean => { s with clean_fd := some fd }
  | .Root => { s with root_fd := some fd }
  | .Module => { s with module_fd := some fd }

/-- Model of `save_mount_namespace` as a state transition over the three
slots. The fork/pipe handshake with the child process is summarized by the
`handshake` parameter: the outcome of one spawn attempt (`ok fd` = the
descriptor obtained from opening the child's namespace file, `error` = any
failure of pipe, fork, namespace switch or pipe I/O, which `bail!`s out
before the slot is initialized). Returns the call's result, the new slot
state, and whether a fork was attempted. The `Except.ok 0` fallthrough
mirrors the final `_ => Ok(0)` arm of the source. -/
def save_mount_namespace (s : NsState) (k : MountNamespace)
    (handshake : Except Unit Int) : Except Unit Int × NsState × Bool :=
  if (slot s k).isSome then
    (match slot s k with | some fd => Except.ok fd | none => Except.ok 0, s, false)
  else
    match handshake with
    | .error e => (.error e, s, true)
    | .ok fd =>
      let s' := set_slot s k fd
      (match slot s' k with | some f => Except.ok f | none => Except.ok 0, s', true)

/-- Written from the claim text for the revert-selection rules: the mount
points the spec says the engine selects, per provider and mode. -/
def selected_by_spec (impl : RootImpl) (modules_only : Bool) (info : MountInfo) :
    Bool :=
  match impl with
  | .APatch | .KernelSU =>
    let tag : Str := if impl = .APatch then "APatch".data else "KSU".data
    if modules_only then starts_with info.mount_point "/debug_ramdisk".data
    else info.mount_source == some tag
      || starts_with info.root "/adb/modules".data
      || starts_with info.mount_point "/data/adb/modules".data
  | .Magisk =>
    if modules_only then starts_with info.mount_point "/debug_ramdisk".data
      || (info.mount_source == some "magisk".data
          && starts_with info.mount_point "/system/bin".data)
    else info.mount_source == some "magisk".data
      || starts_with info.root "/adb/modules".data
  | .None => false

/-- Written from the claim text for the amended parse contract: the fields
of one configuration line (trim, then split on commas). -/
def fields_of (l : Str) : List Str := (trim l).splitOn ','

/-- Written from the claim text for the amended parse contract: a line is
accepted when it has at least six comma-separated fields and its fourth and
fifth fields (uid and to_uid) parse as `i32`. -/
def line_ok (l : Str) : Bool :=
  6 ≤ (fields_of l).length
    && (parseI32 ((fields_of l).getD 3 [])).isSome
    && (parseI32 ((fields_of l).getD 4 [])).isSome

/-- Written from the claim text for the amended parse contract: the entry
an accepted line denotes, built from its first six fields. -/
def entry_of (l : Str) : PackageInfo :=
  { pkg := (fields_of l).getD 0 []
    exclude := (fields_of l).getD 1 [] == "1".data
    allow := (fields_of l).getD 2 [] == "1".data
    uid := (parseI32 ((fields_of l).getD 3 [])).getD 0
    to_uid := (parseI32 ((fields_of l).getD 4 [])).getD 0
    sctx := (fields_of l).getD 5 [] }

end NeoZygisk

namespace NeoZygisk

/-- The slot written by `set_slot` is the one read back by `slot`. -/
theorem slot_set_slot (s : NsState) (k : MountNamespace) (fd : Int) :
    slot (set_slot s k fd) k = some fd := by
  cases k <;> rfl

/-- Characterization of `List.find?` as first match: if position `i` holds
a satisfying element and every earlier position does not, `find?` returns
the element at `i`. -/
theorem find?_first {α : Type} (p : α → Bool) :
    ∀ (l : List α) (i : Nat) (a : α), l[i]? = some a → p a = true →
      (∀ j b, j < i → l[j]? = some b → p b = false) →
      l.find? p = some a := by
  intro l
  induction l with
  | nil => intro i a ha _ _; simp at ha
  | cons x xs ih =>
    intro i a ha hp hmin
    cases i with
    | zero =>
      simp at ha
      subst ha
      simp [List.find?_cons_of_pos, hp]
    | succ n =>
      have hx : p x = false := hmin 0 x (Nat.succ_pos n) (by simp)
      rw [List.find?_cons_of_neg _ (by simp [hx])]
      exact ih n a (by simpa using ha) hp
        (fun j b hj hb => hmin (j + 1) b (Nat.succ_lt_succ hj) (by simpa using hb))

/-- The detachment loop detaches the longest failure-free initial run of
its input, in input order, and reports the first failing path. -/
theorem run_detach_eq (fail : Str → Bool) (l : List Str) :
    run_detach fail l = (l.takeWhile (fun p => !fail p), l.find? fail) := by
  induction l with
  | nil => rfl
  | cons p ps ih =>
    by_cases h : fail p
    · simp [run_detach, h, List.find?_cons_of_pos, List.takeWhile_cons]
    · simp [run_detach, h, ih, List.find?_cons_of_neg, List.takeWhile_cons]

/-- A configuration line parses successfully exactly when it is accepted by
the `line_ok` contract. -/
theorem parse_line_isOk (l : Str) : (parse_line l).isOk = line_ok l := by
  have heq : parse_line l = parse_fields (fields_of l) := rfl
  rw [heq]
  simp only [line_ok]
  rcases hfs : fields_of l with _ | ⟨a, _ | ⟨b, _ | ⟨c, _ | ⟨d, _ | ⟨e, _ | ⟨f, rest⟩⟩⟩⟩⟩⟩
  · simp [parse_fields, Except.isOk, Except.toBool]
  · simp [parse_fields, Except.isOk, Except.toBool]
  · simp [parse_fields, Except.isOk, Except.toBool]
  · simp [parse_fields, Except.isOk, Except.toBool]
  · simp [parse_fields, Except.isOk, Except.toBool]
  · simp [parse_fields, Except.isOk, Except.toBool]
  · have h6 : 6 ≤ (a :: b :: c :: d :: e :: f :: rest).length := by
      simp only [List.length_cons]; omega
    cases hd : parseI32 d <;> cases he : parseI32 e <;>
      simp [parse_fields, hd, he, Except.isOk, Except.toBool, h6]

/-- An accepted configuration line parses to the entry formed from its
first six fields. -/
theorem parse_line_of_ok (l : Str) (h : line_ok l = true) :
    parse_line l = .ok (entry_of l) := by
  have heq : parse_line l = parse_fields (fields_of l) := rfl
  rw [heq]
  simp only [line_ok] at h
  rcases hfs : fields_of l with _ | ⟨a, _ | ⟨b, _ | ⟨c, _ | ⟨d, _ | ⟨e, _ | ⟨f, rest⟩⟩⟩⟩⟩⟩ <;>
    rw [hfs] at h <;> simp at h
  obtain ⟨hu, ht⟩ := h
  rcases hd : parseI32 d with _ | u
  · rw [hd] at hu; simp at hu
  rcases he : parseI32 e with _ | t
  · rw [he] at ht; simp at ht
  simp [parse_fields, hd, he, entry_of, hfs]

/-- The line loop succeeds exactly when every line is accepted. -/
theorem parse_lines_isOk (ls : List Str) :
    (parse_lines ls).isOk = true ↔ ∀ l ∈ ls, line_ok l = true := by
  induction ls with
  | nil => simp [parse_lines, Except.isOk, Except.toBool]
  | cons l ls ih =>
    cases hpl : parse_line l with
    | error e =>
      have hl : line_ok l = false := by rw [← parse_line_isOk, hpl]; rfl
      simp [parse_lines, hpl, hl, Except.isOk, Except.toBool]
    | ok p =>
      have hl : line_ok l = true := by rw [← parse_line_isOk, hpl]; rfl
      cases hr : parse_lines ls <;>
        simp [parse_lines, hpl, hl, hr, Except.isOk, Except.toBool] <;>
        simpa [hr, Except.isOk, Except.toBool] using ih

/-- When every line is accepted, the line loop returns exactly the per-line
entries, in order. -/
theorem parse_lines_of_ok (ls : List Str) (h : ∀ l ∈ ls, line_ok l = true) :
    parse_lines ls = .ok (ls.map entry_of) := by
  induction ls with
  | nil => rfl
  | cons l ls ih =>
    have hl := parse_line_of_ok l (h l (List.mem_cons_self l ls))
    have hr := ih (fun x hx => h x (List.mem_cons_of_mem l hx))
    simp [parse_lines, hl, hr]

/-- The classification of each record agrees, provider by provider, with
the selection rules as the claim states them. -/
theorem should_unmount_spec (impl : RootImpl) (modules_only : Bool)
    (info : MountInfo) (h : impl ≠ RootImpl.None) :
    should_unmount impl modules_only info
      = some (selected_by_spec impl modules_only info) := by
  cases impl with
  | None => exact absurd rfl h
  | APatch => rfl
  | KernelSU => rfl
  | Magisk => rfl

/-- For a supported provider the target-collection loop selects, in mount
enumeration order, exactly the records accepted by the selection rules. -/
theorem collect_targets_some (impl : RootImpl) (modules_only : Bool)
    (infos : List MountInfo) (h : impl ≠ RootImpl.None) :
    collect_targets impl modules_only infos
      = some ((infos.filter (selected_by_spec impl modules_only)).map
          (fun i => i.mount_point)) := by
  induction infos with
  | nil => simp [collect_targets]
  | cons i rest ih =>
    rw [collect_targets, should_unmount_spec impl modules_only i h, ih]
    by_cases hb : selected_by_spec impl modules_only i <;>
      simp [List.filter_cons, hb]

/-- C1: for every well-formed provider configuration table and every uid,
`uid_granted_root` returns the `allow` flag of the first table row whose
uid field equals the queried uid, and `uid_should_umount` returns the
`exclude` flag of that first matching row; if no row matches, both return
`false`. -/
theorem C1_first_match_queries (lines : List Str) (pkgs : List PackageInfo)
    (uid : Int) (hp : parse_config_file lines = .ok pkgs) :
    (∀ (i : Nat) (p : PackageInfo), pkgs[i]? = some p → p.uid = uid →
        (∀ (j : Nat) (q : PackageInfo), j < i → pkgs[j]? = some q → q.uid ≠ uid) →
        uid_granted_root lines uid = p.allow
          ∧ uid_should_umount lines uid = p.exclude)
    ∧ ((∀ p ∈ pkgs, p.uid ≠ uid) →
        uid_granted_root lines uid = false
          ∧ uid_should_umount lines uid = false) := by
  constructor
  · intro i p hip hpu hmin
    have hf : pkgs.find? (fun q => q.uid == uid) = some p :=
      find?_first _ pkgs i p hip (by simp [hpu])
        (fun j q hj hq => by simpa using hmin j q hj hq)
    constructor <;> simp [uid_granted_root, uid_should_umount, hp, hf]
  · intro hall
    have hf : pkgs.find? (fun q => q.uid == uid) = none :=
      List.find?_eq_none.mpr (fun q hq => by simpa using hall q hq)
    constructor <;> simp [uid_granted_root, uid_should_umount, hp, hf]

/-- Witness for C1 at the spec example table: the single row grants root to
uid 10091. -/
theorem C1_first_match_queries_witness :
    uid_granted_root
        ["pkg,exclude,allow,uid,to_uid,sctx".data,
         "app.evil,0,1,10091,10091,u:r:untrusted:s0".data] 10091 = true := by
  have h := (C1_first_match_queries
      ["pkg,exclude,allow,uid,to_uid,sctx".data,
       "app.evil,0,1,10091,10091,u:r:untrusted:s0".data]
      [{ pkg := "app.evil".data, exclude := false, allow := true,
         uid := 10091, to_uid := 10091, sctx := "u:r:untrusted:s0".data }]
      10091 (by decide)).1 0
      { pkg := "app.evil".data, exclude := false, allow := true,
        uid := 10091, to_uid := 10091, sctx := "u:r:untrusted:s0".data }
      (by decide) (by decide) (fun j q hj _ => absurd hj (Nat.not_lt_zero j))
  exact h.1

/-- C2 counterexample: on a malformed table (a line with too few fields)
the parse fails, yet `uid_granted_root` and `uid_should_umount` return the
plain `false` — the same value they return on a well-formed table with no
matching uid — so the caller cannot distinguish a parse error from
no-match. -/
theorem C2_counterexample :
    (parse_config_file ["hdr".data, "a,b".data]).isOk = false
    ∧ uid_granted_root ["hdr".data, "a,b".data] 0 = false
    ∧ uid_should_umount ["hdr".data, "a,b".data] 0 = false
    ∧ uid_granted_root ["hdr".data] 0 = false
    ∧ uid_should_umount ["hdr".data] 0 = false := by
  decide

/-- C2 amended: when the configuration table is malformed, the internal
`parse_config_file` reports a distinguishable error, but `uid_granted_root`
and `uid_should_umount` swallow it (logging only) and return `false`,
indistinguishable from the no-matching-uid case. -/
theorem C2_parse_error_yields_false (lines : List Str) (uid : Int) (e : Str)
    (h : parse_config_file lines = .error e) :
    uid_granted_root lines uid = false ∧ uid_should_umount lines uid = false := by
  constructor <;> simp [uid_granted_root, uid_should_umount, h]

/-- Witness for the amended C2 theorem at a concrete malformed table. -/
theorem C2_parse_error_yields_false_witness :
    uid_granted_root ["hdr".data, "a,b".data] 0 = false
    ∧ uid_should_umount ["hdr".data, "a,b".data] 0 = false :=
  C2_parse_error_yields_false ["hdr".data, "a,b".data] 0
    "Invalid line format".data (by decide)

/-- C3 counterexample: a non-header line with seven comma-separated fields
has field count different from six, yet `parse_config_file` accepts the
file instead of returning an error (the source matches only the first six
iterator items; extras are ignored). -/
theorem C3_counterexample :
    (fields_of "a,0,1,5,6,c,x".data).length = 7
    ∧ (parse_config_file ["h".data, "a,0,1,5,6,c,x".data]).isOk = true := by
  decide

/-- C3 amended: `parse_config_file` discards the first (header) line; for
every subsequent line with fewer than six comma-separated fields, or whose
uid or to_uid field is not an integer, it returns an error and yields no
entries at all; it returns the full entry list exactly when every
non-header line has at least six fields with integer uid and to_uid (fields
past the sixth are ignored). -/
theorem C3_parse_contract (hdr : Str) (rest : List Str) :
    ((parse_config_file (hdr :: rest)).isOk = true ↔ ∀ l ∈ rest, line_ok l = true)
    ∧ ((∀ l ∈ rest, line_ok l = true) →
        parse_config_file (hdr :: rest) = .ok (rest.map entry_of)) := by
  constructor
  · exact parse_lines_isOk rest
  · exact parse_lines_of_ok rest

/-- Witness for the amended C3 theorem on a one-row well-formed table. -/
theorem C3_parse_contract_witness :
    parse_config_file ["h".data, "a,0,1,5,6,c".data]
      = .ok [{ pkg := "a".data, exclude := false, allow := true,
               uid := 5, to_uid := 6, sctx := "c".data }] := by
  have h := (C3_parse_contract "h".data ["a,0,1,5,6,c".data]).2 (by decide)
  rw [h]
  decide

/-- C10: the exclude and allow fields are not validated as 0/1; the parsed
flag is the boolean equality of the field with the exact string "1", and
any other field value yields `false` without a parse error. -/
theorem C10_flag_fields (pkg ex al uid_s to_uid_s sctx : Str)
    (rest : List Str) (u t : Int)
    (hu : parseI32 uid_s = some u) (ht : parseI32 to_uid_s = some t) :
    parse_fields (pkg :: ex :: al :: uid_s :: to_uid_s :: sctx :: rest)
      = .ok { pkg := pkg, exclude := ex == "1".data, allow := al == "1".data,
              uid := u, to_uid := t, sctx := sctx } := by
  simp [parse_fields, hu, ht]

/-- Witness for C10: the values "0" and "true" in the exclude and allow
fields parse to `false` flags with no error. -/
theorem C10_flag_fields_witness :
    parse_fields ["p".data, "0".data, "true".data, "5".data, "6".data, "c".data]
      = .ok { pkg := "p".data, exclude := false, allow := false,
              uid := 5, to_uid := 6, sctx := "c".data } := by
  have h := C10_flag_fields "p".data "0".data "true".data "5".data "6".data
      "c".data [] 5 6 (by decide) (by decide)
  rw [h]
  decide

/-- C4: for every mount table and supported provider, the mount-revert
engine selects exactly the claimed mount points: for APatch or KernelSU
with `modules_only`, points under /debug_ramdisk; without it, points whose
source equals the provider tag ("APatch" / "KSU"), or whose root starts
with /adb/modules, or whose mount point starts with /data/adb/modules; for
Magisk with `modules_only`, the /debug_ramdisk points plus /system/bin
points with source "magisk"; for Magisk without it, points with source
"magisk" or root under /adb/modules. -/
theorem C4_revert_selection (impl : RootImpl) (modules_only : Bool)
    (infos : List MountInfo) (h : impl ≠ RootImpl.None) :
    collect_targets impl modules_only infos
      = some ((infos.filter (selected_by_spec impl modules_only)).map
          (fun i => i.mount_point)) :=
  collect_targets_some impl modules_only infos h

/-- Witness for C4: an APatch table with one modules-storage mount and one
unrelated vendor mount selects exactly the modules-storage point. -/
theorem C4_revert_selection_witness :
    collect_targets RootImpl.APatch false
      [⟨"/data/adb/modules/a".data, none, "/x".data⟩,
       ⟨"/vendor".data, some "vendorfs".data, "/".data⟩]
      = some ["/data/adb/modules/a".data] := by
  have h := C4_revert_selection RootImpl.APatch false
      [⟨"/data/adb/modules/a".data, none, "/x".data⟩,
       ⟨"/vendor".data, some "vendorfs".data, "/".data⟩] (by decide)
  rw [h]
  decide

/-- C5: the mount-revert engine detaches the selected mount points in
exactly the reverse of their mount-table enumeration order (the performed
detachments are an initial run of the reversed target list), and a
detachment failure aborts the remaining sequence, reporting the first
failing path as the error. -/
theorem C5_detach_reverse_order (impl : RootImpl) (modules_only : Bool)
    (infos : List MountInfo) (fail : Str → Bool) (targets : List Str)
    (h : collect_targets impl modules_only infos = some targets) :
    revert_unmount impl modules_only infos fail
      = some (targets.reverse.takeWhile (fun p => !fail p),
              targets.reverse.find? fail) := by
  simp [revert_unmount, h, run_detach_eq]

/-- Witness for C5 at the spec example: two nested magisk mounts are both
detached, child first. -/
theorem C5_detach_reverse_order_witness :
    revert_unmount RootImpl.Magisk false
      [⟨"/system/bin".data, some "magisk".data, "/".data⟩,
       ⟨"/system/bin/sh".data, some "magisk".data, "/".data⟩]
      (fun _ => false)
      = some (["/system/bin/sh".data, "/system/bin".data], none) := by
  have h := C5_detach_reverse_order RootImpl.Magisk false
      [⟨"/system/bin".data, some "magisk".data, "/".data⟩,
       ⟨"/system/bin/sh".data, some "magisk".data, "/".data⟩]
      (fun _ => false) ["/system/bin".data, "/system/bin/sh".data] (by decide)
  rw [h]
  decide

/-- C6: if a call to `save_mount_namespace` for a kind returns a
descriptor, a second call with the same kind returns the same descriptor,
leaves the slots unchanged, and performs no fork — the handshake runs at
most once per kind, and a populated slot is served from cache. -/
theorem C6_namespace_cache_once (s : NsState) (k : MountNamespace)
    (h1 h2 : Except Unit Int) (fd : Int)
    (hok : (save_mount_namespace s k h1).1 = .ok fd) :
    (save_mount_namespace (save_mount_namespace s k h1).2.1 k h2).1 = .ok fd
    ∧ (save_mount_namespace (save_mount_namespace s k h1).2.1 k h2).2.1
        = (save_mount_namespace s k h1).2.1
    ∧ (save_mount_namespace (save_mount_namespace s k h1).2.1 k h2).2.2 = false := by
  have hslot : slot (save_mount_namespace s k h1).2.1 k = some fd := by
    cases hv : slot s k with
    | some v =>
      have hfast : save_mount_namespace s k h1 = (Except.ok v, s, false) := by
        simp [save_mount_namespace, hv]
      rw [hfast] at hok ⊢
      simp at hok
      simp [hv, hok]
    | none =>
      cases h1 with
      | error e => simp [save_mount_namespace, hv] at hok
      | ok f =>
        have hstep : save_mount_namespace s k (.ok f)
            = (Except.ok f, set_slot s k f, true) := by
          simp [save_mount_namespace, hv, slot_set_slot]
        rw [hstep] at hok ⊢
        simp at hok
        simp [slot_set_slot, hok]
  set s1 := (save_mount_namespace s k h1).2.1 with hs1
  refine ⟨?_, ?_, ?_⟩ <;> simp [save_mount_namespace, hslot]

/-- Witness for C6: after a first Clean-kind call obtains descriptor 7, a
second call returns 7 with no fork even though its own handshake would
fail. -/
theorem C6_namespace_cache_once_witness :
    (save_mount_namespace
        (save_mount_namespace ⟨none, none, none⟩ MountNamespace.Clean
          (Except.ok 7)).2.1
        MountNamespace.Clean (Except.error ())).1 = Except.ok 7
    ∧ (save_mount_namespace
        (save_mount_namespace ⟨none, none, none⟩ MountNamespace.Clean
          (Except.ok 7)).2.1
        MountNamespace.Clean (Except.error ())).2.1
        = (save_mount_namespace ⟨none, none, none⟩ MountNamespace.Clean
            (Except.ok 7)).2.1
    ∧ (save_mount_namespace
        (save_mount_namespace ⟨none, none, none⟩ MountNamespace.Clean
          (Except.ok 7)).2.1
        MountNamespace.Clean (Except.error ())).2.2 = false :=
  C6_namespace_cache_once ⟨none, none, none⟩ MountNamespace.Clean
    (Except.ok 7) (Except.error ()) 7 (by decide)

/-- C7: the APatch version probe returns `none` when the helper pipeline
fails, when the output is not exactly two whitespace-separated tokens, or
when the second token is not an integer; when the second token parses as
`v`, it returns `Supported` for `v` at least the minimum version and
`TooOld` below it. -/
theorem C7_version_probe (m : Int) :
    get_apatch m none = none
    ∧ (∀ s : Str, (split_whitespace s).length ≠ 2 → get_apatch m (some s) = none)
    ∧ (∀ (s t1 t2 : Str), split_whitespace s = [t1, t2] → parseI32 t2 = none →
        get_apatch m (some s) = none)
    ∧ (∀ (s t1 t2 : Str) (v : Int), split_whitespace s = [t1, t2] →
        parseI32 t2 = some v →
        get_apatch m (some s)
          = some (if v ≥ m then Version.Supported else Version.TooOld)) := by
  refine ⟨rfl, ?_, ?_, ?_⟩
  · intro s hs
    rcases hsw : split_whitespace s with _ | ⟨a, tail⟩
    · simp [get_apatch, hsw]
    · rcases tail with _ | ⟨b, tail2⟩
      · simp [get_apatch, hsw]
      · rcases tail2 with _ | ⟨c, r⟩
        · exact absurd (by rw [hsw]; rfl) hs
        · simp [get_apatch, hsw]
  · intro s t1 t2 hsw hp
    simp [get_apatch, hsw, hp]
  · intro s t1 t2 v hsw hp
    simp [get_apatch, hsw, hp]

/-- Witness for C7 at the spec examples: "apd 12" with minimum 10 is
Supported, "apd 5" is TooOld, and a failed spawn is unsupported. -/
theorem C7_version_probe_witness :
    get_apatch 10 (some "apd 12".data) = some Version.Supported
    ∧ get_apatch 10 (some "apd 5".data) = some Version.TooOld
    ∧ get_apatch 10 none = none := by
  have h1 := (C7_version_probe 10).2.2.2 "apd 12".data "apd".data "12".data 12
      (by decide) (by decide)
  have h2 := (C7_version_probe 10).2.2.2 "apd 5".data "apd".data "5".data 5
      (by decide) (by decide)
  refine ⟨?_, ?_, (C7_version_probe 10).1⟩
  · rw [h1]; decide
  · rw [h2]; decide

/-- C8: with a supported provider (APatch, KernelSU or Magisk) the fatal
unknown-provider branch of `revert_unmount` is unreachable and the engine
produces a result; with the unknown provider and a non-empty mount table,
the engine hits the `panic!` and does not return. -/
theorem C8_unknown_provider_panics (impl : RootImpl) (modules_only : Bool)
    (infos : List MountInfo) (fail : Str → Bool) :
    ((impl = RootImpl.APatch ∨ impl = RootImpl.KernelSU ∨ impl = RootImpl.Magisk) →
      (revert_unmount impl modules_only infos fail).isSome = true)
    ∧ (∀ (i : MountInfo) (rest : List MountInfo), infos = i :: rest →
        revert_unmount RootImpl.None modules_only infos fail = none) := by
  constructor
  · intro h
    have hne : impl ≠ RootImpl.None := by
      rcases h with h | h | h <;> subst h <;> decide
    simp [revert_unmount, collect_targets_some impl modules_only infos hne]
  · intro i rest hinfos
    subst hinfos
    simp [revert_unmount, collect_targets, should_unmount]

/-- Witness for C8 on a one-row mount table: Magisk succeeds, the unknown
provider panics. -/
theorem C8_unknown_provider_panics_witness :
    (revert_unmount RootImpl.Magisk false
        [⟨"/a".data, none, "/".data⟩] (fun _ => false)).isSome = true
    ∧ revert_unmount RootImpl.None false
        [⟨"/a".data, none, "/".data⟩] (fun _ => false) = none :=
  ⟨(C8_unknown_provider_panics RootImpl.Magisk false
      [⟨"/a".data, none, "/".data⟩] (fun _ => false)).1 (Or.inr (Or.inr rfl)),
   (C8_unknown_provider_panics RootImpl.None false
      [⟨"/a".data, none, "/".data⟩] (fun _ => false)).2
      ⟨"/a".data, none, "/".data⟩ [] rfl⟩

/-- C9: `uid_is_manager` compares the file owner uid with the queried
signed uid cast to unsigned by wrapping, so for a negative uid `u` it
returns `true` exactly when the stat succeeds and the owner uid equals
`u + 2^32`, not always `false`. -/
theorem C9_negative_uid_manager (st : Nat) (u : Int)
    (h1 : -(2 ^ 31) ≤ u) (h2 : u < 0) :
    (uid_is_manager (some st) u = true ↔ (st : Int) = u + 2 ^ 32)
    ∧ uid_is_manager none u = false := by
  refine ⟨?_, rfl⟩
  simp only [uid_is_manager, beq_iff_eq]
  constructor <;> intro h <;> omega

/-- Witness for C9: uid -5 is the manager when the file owner uid is
2^32 - 5 = 4294967291. -/
theorem C9_negative_uid_manager_witness :
    uid_is_manager (some 4294967291) (-5) = true :=
  (C9_negative_uid_manager 4294967291 (-5) (by norm_num) (by norm_num)).1.mpr
    (by norm_num)

end NeoZygisk
